import Mathlib

/-!
Verification of the GTCX TradeDesk utility.

Part 1 embeds the Ecosystem Gateway, translated from the class
`GTCXEcosystemIntegration` in `src/integration/gtcx-ecosystem.ts` (the file is
reproduced in full inside `docs/GTCX_ECOSYSTEM_INTEGRATION_SUMMARY.md`).
`Math.random()` and `new Date()` are modelled as explicit parameters
(`rand : ℚ` with `0 ≤ rand < 1`, `now : ℕ`); `Promise`-typed methods that can
only resolve or reject are modelled with `Except String`; a `T | null` result
is `Option T`.  The body of each capability getter sits inside a
`try { ... } catch { return null }`; to reason about arbitrary internal
failures, each getter is factored through a `...With` variant taking the body
outcome as an `Except` parameter, and the concrete getter instantiates it with
the (never-failing) mock body from the source.
-/

namespace GTCX

/-- One service section of `GTCXConfig` (`ai`, `compliance`, `security`). -/
structure ServiceConfig where
  enabled : Bool
  endpoint : Option String
  apiKey : Option String
deriving DecidableEq

/-- The `globalSouth` section of `GTCXConfig`. -/
structure GlobalSouthConfig where
  offlineMode : Bool
  lowBandwidth : Bool
  localCaching : Bool
deriving DecidableEq

/-- The `GTCXConfig`: every section is optional (`?` fields in the source). -/
structure GTCXConfig where
  ai : Option ServiceConfig
  compliance : Option ServiceConfig
  security : Option ServiceConfig
  globalSouth : Option GlobalSouthConfig
deriving DecidableEq

/-- Truthiness of `this.config.ai?.enabled`: false when the section is absent. -/
def aiEnabled (c : GTCXConfig) : Bool :=
  match c.ai with
  | some s => s.enabled
  | none => false

/-- Truthiness of `this.config.compliance?.enabled`. -/
def complianceEnabled (c : GTCXConfig) : Bool :=
  match c.compliance with
  | some s => s.enabled
  | none => false

/-- Truthiness of `this.config.security?.enabled`. -/
def securityEnabled (c : GTCXConfig) : Bool :=
  match c.security with
  | some s => s.enabled
  | none => false

/-- The `GTCXAIResponse` from the source. -/
structure GTCXAIResponse where
  riskScore : ℚ
  confidence : ℚ
  recommendations : List String
  timestamp : ℕ
deriving DecidableEq

/-- The `checks` record inside `GTCXComplianceResult`. -/
structure ComplianceChecks where
  kyc : Bool
  aml : Bool
  trading : Bool
  risk : Bool
deriving DecidableEq

/-- The `GTCXComplianceResult` from the source. -/
structure GTCXComplianceResult where
  compliant : Bool
  checks : ComplianceChecks
  warnings : List String
  timestamp : ℕ
deriving DecidableEq

/-- The `GTCXSecurityResult` from the source; `riskLevel` is a string literal union
in TypeScript, modelled as `String`. -/
structure GTCXSecurityResult where
  authenticated : Bool
  permissions : List String
  riskLevel : String
  timestamp : ℕ
deriving DecidableEq

/-- The mutable state of a `GTCXEcosystemIntegration` object: its `config` and
the private `isConnected` field. -/
structure GTCXEcosystemIntegration where
  config : GTCXConfig
  isConnected : Bool
deriving DecidableEq

namespace GTCXEcosystemIntegration

/-- The constructor: stores the config; `isConnected` is initialized to
`false`. -/
def new (config : GTCXConfig) : GTCXEcosystemIntegration :=
  { config := config, isConnected := false }

/-- The `testAIConnection`: awaits a `setTimeout` promise that always resolves. -/
def testAIConnection : Except String Unit :=
  Except.ok ()

/-- The `testComplianceConnection`: awaits a promise that always resolves. -/
def testComplianceConnection : Except String Unit :=
  Except.ok ()

/-- The `testSecurityConnection`: awaits a promise that always resolves. -/
def testSecurityConnection : Except String Unit :=
  Except.ok ()

/-- The `try` block of `connect`: probe each enabled service in order. -/
def connectProbe (c : GTCXConfig) : Except String Unit := do
  if aiEnabled c then testAIConnection else pure ()
  if complianceEnabled c then testComplianceConnection else pure ()
  if securityEnabled c then testSecurityConnection else pure ()

/-- The `connect()`: on success of all probes set `isConnected := true` and return
`true`; the `catch` branch sets `isConnected := false` and returns `false`. -/
def connect (g : GTCXEcosystemIntegration) : Bool × GTCXEcosystemIntegration :=
  match connectProbe g.config with
  | Except.ok _ => (true, { g with isConnected := true })
  | Except.error _ => (false, { g with isConnected := false })

/-- The `getAIRiskAssessment` with the body of the `try` block abstracted as an
`Except` outcome: the guard returns `null` when the capability is disabled or
not connected, and the `catch` maps any thrown error to `null`. -/
def getAIRiskAssessmentWith (g : GTCXEcosystemIntegration)
    (body : Except String GTCXAIResponse) : Option GTCXAIResponse :=
  if !(aiEnabled g.config) || !g.isConnected then none
  else
    match body with
    | Except.ok r => some r
    | Except.error _ => none

/-- The mock response built in the `try` block of `getAIRiskAssessment`:
`riskScore = Math.random() * 100`, `confidence = 0.85`, two fixed
recommendations, `timestamp = new Date()`. -/
def aiMockResponse (rand : ℚ) (now : ℕ) : GTCXAIResponse :=
  { riskScore := rand * 100
    confidence := 85 / 100
    recommendations :=
      ["Consider diversifying your portfolio",
       "Monitor position sizes for risk management"]
    timestamp := now }

/-- The `getAIRiskAssessment(portfolioData)`; the argument is unused by the mock. -/
def getAIRiskAssessment (g : GTCXEcosystemIntegration) (portfolioData : String)
    (rand : ℚ) (now : ℕ) : Option GTCXAIResponse :=
  let _ := portfolioData
  getAIRiskAssessmentWith g (Except.ok (aiMockResponse rand now))

/-- The `getAITradeRecommendations` with the `try` body abstracted. -/
def getAITradeRecommendationsWith (g : GTCXEcosystemIntegration)
    (body : Except String (List String)) : Option (List String) :=
  if !(aiEnabled g.config) || !g.isConnected then none
  else
    match body with
    | Except.ok r => some r
    | Except.error _ => none

/-- The fixed mock recommendation list from the source. -/
def tradeRecommendationsMock : List String :=
  ["Consider buying gold as a hedge",
   "Silver shows strong momentum",
   "Diversify into agricultural commodities"]

/-- The `getAITradeRecommendations(userId, marketData)`; both arguments are unused
by the mock. -/
def getAITradeRecommendations (g : GTCXEcosystemIntegration)
    (userId marketData : String) : Option (List String) :=
  let _ := userId
  let _ := marketData
  getAITradeRecommendationsWith g (Except.ok tradeRecommendationsMock)

/-- The `performGuardianCompliance` with the `try` body abstracted. -/
def performGuardianComplianceWith (g : GTCXEcosystemIntegration)
    (body : Except String GTCXComplianceResult) : Option GTCXComplianceResult :=
  if !(complianceEnabled g.config) || !g.isConnected then none
  else
    match body with
    | Except.ok r => some r
    | Except.error _ => none

/-- The fixed mock compliance result from the source. -/
def complianceMock (now : ℕ) : GTCXComplianceResult :=
  { compliant := true
    checks := { kyc := true, aml := true, trading := true, risk := true }
    warnings := []
    timestamp := now }

/-- The `performGuardianCompliance(userId)`; the argument is unused by the mock. -/
def performGuardianCompliance (g : GTCXEcosystemIntegration) (userId : String)
    (now : ℕ) : Option GTCXComplianceResult :=
  let _ := userId
  performGuardianComplianceWith g (Except.ok (complianceMock now))

/-- The `getSecurityStatus` with the `try` body abstracted. -/
def getSecurityStatusWith (g : GTCXEcosystemIntegration)
    (body : Except String GTCXSecurityResult) : Option GTCXSecurityResult :=
  if !(securityEnabled g.config) || !g.isConnected then none
  else
    match body with
    | Except.ok r => some r
    | Except.error _ => none

/-- The fixed mock security result from the source. -/
def securityMock (now : ℕ) : GTCXSecurityResult :=
  { authenticated := true
    permissions := ["trade", "withdraw", "deposit"]
    riskLevel := "low"
    timestamp := now }

/-- The `getSecurityStatus(userId)`; the argument is unused by the mock. -/
def getSecurityStatus (g : GTCXEcosystemIntegration) (userId : String)
    (now : ℕ) : Option GTCXSecurityResult :=
  let _ := userId
  getSecurityStatusWith g (Except.ok (securityMock now))

/-- The `isOfflineModeSupported()`: `config.globalSouth?.offlineMode || false`. -/
def isOfflineModeSupported (g : GTCXEcosystemIntegration) : Bool :=
  match g.config.globalSouth with
  | some gs => gs.offlineMode
  | none => false

/-- The `getConnectionStatus()`. -/
def getConnectionStatus (g : GTCXEcosystemIntegration) : Bool :=
  g.isConnected

end GTCXEcosystemIntegration

end GTCX

/-!
Part 2: the core trading engine.  The repository ships only the documentation,
the example driver and the gateway source; the files
`src/core/simple-tradedesk.ts` and `src/core/simple-trading-engine.ts` that
implement the Order Lifecycle Manager and the Portfolio Ledger are not in the
tree, so the engine is modelled from the specification (sections 3, 4.1, 4.2,
6 and 7).  Monetary and quantity values are exact rationals.
-/

namespace TradeDesk

/-- Modelled from the spec: the error kinds of section 7. -/
inductive TradeError where
  | UserNotFound
  | OrderNotFound
  | InvalidOrderState
  | InvalidQuantity
  | InvalidPrice
  | InsufficientPosition
deriving DecidableEq

/-- Modelled from the spec: the side of an order. -/
inductive Side where
  | buy
  | sell
deriving DecidableEq

/-- Modelled from the spec: order status, `pending` initial, `executed` and
`cancelled` terminal. -/
inductive OrderStatus where
  | pending
  | executed
  | cancelled
deriving DecidableEq

/-- Modelled from the spec: a User record of the User Registry. -/
structure User where
  id : String
  name : String
  email : String
  createdAt : ℕ
deriving DecidableEq

/-- Modelled from the spec: an Order record. -/
structure Order where
  id : ℕ
  userId : String
  symbol : String
  side : Side
  quantity : ℚ
  limitPrice : ℚ
  status : OrderStatus
  createdAt : ℕ
  executedAt : Option ℕ
deriving DecidableEq

/-- Modelled from the spec: a Trade record. -/
structure Trade where
  id : ℕ
  orderId : ℕ
  executionPrice : ℚ
  quantity : ℚ
  executedAt : ℕ
deriving DecidableEq

/-- Modelled from the spec: a Position, keyed by symbol inside a Portfolio. -/
structure Position where
  quantity : ℚ
  averageCost : ℚ
deriving DecidableEq

/-- Modelled from the spec: a per-user Portfolio. -/
structure Portfolio where
  positions : List (String × Position)
  cashBalance : ℚ
  realizedPnL : ℚ
deriving DecidableEq

/-- The empty position used when a symbol has never been traded. -/
def emptyPosition : Position :=
  { quantity := 0, averageCost := 0 }

/-- Look up the position for a symbol (empty position when absent). -/
def lookupPos (p : Portfolio) (symbol : String) : Position :=
  match p.positions.find? (fun q => q.fst == symbol) with
  | some q => q.snd
  | none => emptyPosition

/-- Store a position for a symbol, replacing an existing entry in place or
appending a new one. -/
def setPos (p : Portfolio) (symbol : String) (pos : Position) : Portfolio :=
  { p with positions :=
      if (p.positions.find? (fun q => q.fst == symbol)).isSome then
        p.positions.map (fun q => if q.fst == symbol then (symbol, pos) else q)
      else p.positions ++ [(symbol, pos)] }

/-- Modelled from the spec: `applyTrade` of the Portfolio Ledger (section 4.2).
Buy: weighted average cost, cash decreases by `quantity * executionPrice`.
Sell: fails with `InsufficientPosition` when `quantity > oldQty` unless
short-selling is enabled; otherwise realized P&L grows by
`(executionPrice - oldAvgCost) * quantity`, cash grows by
`quantity * executionPrice`, average cost unchanged. -/
def applyTrade (shortSelling : Bool) (p : Portfolio) (symbol : String)
    (side : Side) (quantity executionPrice : ℚ) : Except TradeError Portfolio :=
  let old := lookupPos p symbol
  match side with
  | Side.buy =>
      let newQty := old.quantity + quantity
      let newAvg :=
        if old.quantity = 0 then executionPrice
        else (old.quantity * old.averageCost + quantity * executionPrice) / newQty
      let p1 := setPos p symbol { quantity := newQty, averageCost := newAvg }
      Except.ok { p1 with cashBalance := p1.cashBalance - quantity * executionPrice }
  | Side.sell =>
      if old.quantity < quantity ∧ shortSelling = false then
        Except.error TradeError.InsufficientPosition
      else
        let p1 := setPos p symbol
          { quantity := old.quantity - quantity, averageCost := old.averageCost }
        Except.ok { p1 with
          cashBalance := p1.cashBalance + quantity * executionPrice
          realizedPnL := p1.realizedPnL + (executionPrice - old.averageCost) * quantity }

/-- Modelled from the spec: the in-memory engine state (users, orders, trades,
portfolios, id counters, short-selling policy flag, disabled by default). -/
structure EngineState where
  users : List User
  orders : List Order
  trades : List Trade
  portfolios : List (String × Portfolio)
  nextOrderId : ℕ
  nextTradeId : ℕ
  shortSelling : Bool
deriving DecidableEq

/-- The initial engine state. -/
def initState : EngineState :=
  { users := [], orders := [], trades := [], portfolios := []
    nextOrderId := 0, nextTradeId := 0, shortSelling := false }

/-- The portfolio of a user (a fresh empty portfolio when none exists yet). -/
def getPortfolio (s : EngineState) (userId : String) : Portfolio :=
  match s.portfolios.find? (fun q => q.fst == userId) with
  | some q => q.snd
  | none => { positions := [], cashBalance := 0, realizedPnL := 0 }

/-- Store a user's portfolio. -/
def setPortfolio (s : EngineState) (userId : String) (p : Portfolio) : EngineState :=
  { s with portfolios :=
      if (s.portfolios.find? (fun q => q.fst == userId)).isSome then
        s.portfolios.map (fun q => if q.fst == userId then (userId, p) else q)
      else s.portfolios ++ [(userId, p)] }

/-- Find an order by id. -/
def findOrder (s : EngineState) (orderId : ℕ) : Option Order :=
  s.orders.find? (fun o => o.id == orderId)

/-- Modelled from the spec: `createUser` of the User Registry; a duplicate id
leaves the registry unchanged (ids are unique and immutable). -/
def createUser (s : EngineState) (id name email : String) (now : ℕ) : EngineState :=
  if (s.users.find? (fun u => u.id == id)).isSome then s
  else { s with users :=
    s.users ++ [{ id := id, name := name, email := email, createdAt := now }] }

/-- Modelled from the spec: `placeOrder` of the Order Lifecycle Manager
(section 4.1): `UserNotFound`, `InvalidQuantity`, `InvalidPrice` checks, then a
`pending` order is appended. -/
def placeOrder (s : EngineState) (userId symbol : String) (side : Side)
    (quantity limitPrice : ℚ) (now : ℕ) : Except TradeError (Order × EngineState) :=
  if (s.users.find? (fun u => u.id == userId)).isNone then
    Except.error TradeError.UserNotFound
  else if quantity ≤ 0 then Except.error TradeError.InvalidQuantity
  else if limitPrice ≤ 0 then Except.error TradeError.InvalidPrice
  else
    let o : Order :=
      { id := s.nextOrderId, userId := userId, symbol := symbol, side := side
        quantity := quantity, limitPrice := limitPrice, status := OrderStatus.pending
        createdAt := now, executedAt := none }
    Except.ok (o, { s with orders := s.orders ++ [o], nextOrderId := s.nextOrderId + 1 })

/-- Modelled from the spec: `executeTrade` of the Order Lifecycle Manager
(section 4.1): `OrderNotFound`, `InvalidOrderState`, `InvalidPrice` checks,
then the Portfolio Ledger is invoked; on its failure the state is unchanged
(atomicity, section 7); on success the order becomes `executed`, exactly one
Trade is appended and the portfolio is updated before returning. -/
def executeTrade (s : EngineState) (orderId : ℕ) (executionPrice : ℚ)
    (now : ℕ) : Except TradeError (Trade × EngineState) :=
  match findOrder s orderId with
  | none => Except.error TradeError.OrderNotFound
  | some o =>
    if o.status ≠ OrderStatus.pending then Except.error TradeError.InvalidOrderState
    else if executionPrice ≤ 0 then Except.error TradeError.InvalidPrice
    else
      match applyTrade s.shortSelling (getPortfolio s o.userId) o.symbol o.side
          o.quantity executionPrice with
      | Except.error e => Except.error e
      | Except.ok pf =>
        let t : Trade :=
          { id := s.nextTradeId, orderId := orderId
            executionPrice := executionPrice, quantity := o.quantity, executedAt := now }
        let s1 := setPortfolio s o.userId pf
        Except.ok (t, { s1 with
          orders := s1.orders.map (fun q =>
            if q.id == orderId then
              { q with status := OrderStatus.executed, executedAt := some now }
            else q)
          trades := s1.trades ++ [t]
          nextTradeId := s1.nextTradeId + 1 })

/-- Modelled from the spec: `cancelOrder` (section 4.1): `true` only when the
order was `pending` and is now `cancelled`; `false` (not an error) when
already terminal; `OrderNotFound` when unknown. -/
def cancelOrder (s : EngineState) (orderId : ℕ) : Except TradeError (Bool × EngineState) :=
  match findOrder s orderId with
  | none => Except.error TradeError.OrderNotFound
  | some o =>
    if o.status = OrderStatus.pending then
      Except.ok (true, { s with orders := s.orders.map (fun q =>
        if q.id == orderId then { q with status := OrderStatus.cancelled } else q) })
    else Except.ok (false, s)

/-- One external engine operation; timestamps are explicit inputs. -/
inductive Action where
  | createUser (id name email : String) (now : ℕ)
  | placeOrder (userId symbol : String) (side : Side) (quantity limitPrice : ℚ) (now : ℕ)
  | executeTrade (orderId : ℕ) (executionPrice : ℚ) (now : ℕ)
  | cancelOrder (orderId : ℕ)
deriving DecidableEq

/-- The state reached by one operation; a failed operation surfaces its error
to the caller and leaves the state unchanged (section 7). -/
def step (s : EngineState) (a : Action) : EngineState :=
  match a with
  | Action.createUser id name email now => createUser s id name email now
  | Action.placeOrder uid sym side q px now =>
      match placeOrder s uid sym side q px now with
      | Except.ok r => r.snd
      | Except.error _ => s
  | Action.executeTrade oid px now =>
      match executeTrade s oid px now with
      | Except.ok r => r.snd
      | Except.error _ => s
  | Action.cancelOrder oid =>
      match cancelOrder s oid with
      | Except.ok r => r.snd
      | Except.error _ => s

/-- The state after a sequence of operations from the initial state. -/
def run (acts : List Action) : EngineState :=
  acts.foldl step initState

/-- The number of trades recorded for a given order id. -/
def tradeCount (s : EngineState) (orderId : ℕ) : ℕ :=
  (s.trades.filter (fun t => t.orderId == orderId)).length

/-- The internal well-formedness invariant of the engine state: order ids are
bounded by the counter and duplicate-free, every trade refers to an existing
order, and every order has exactly one trade when executed and none
otherwise. -/
def EngineInv (s : EngineState) : Prop :=
  (∀ o ∈ s.orders, o.id < s.nextOrderId) ∧
  (s.orders.map (fun o => o.id)).Nodup ∧
  (∀ t ∈ s.trades, ∃ o ∈ s.orders, t.orderId = o.id) ∧
  (∀ o ∈ s.orders, tradeCount s o.id = if o.status = OrderStatus.executed then 1 else 0)

end TradeDesk

/-!
Concrete configurations and scenarios used to instantiate the theorems below.
-/

namespace GTCX

/-- A configuration with every section absent. -/
def offConfig : GTCXConfig :=
  { ai := none, compliance := none, security := none, globalSouth := none }

/-- A configuration with all three services enabled. -/
def onConfig : GTCXConfig :=
  { ai := some { enabled := true, endpoint := none, apiKey := none }
    compliance := some { enabled := true, endpoint := none, apiKey := none }
    security := some { enabled := true, endpoint := none, apiKey := none }
    globalSouth := none }

/-- The `onConfig` with the `ai` capability switched off. -/
def aiOffConfig : GTCXConfig :=
  { onConfig with ai := some { enabled := false, endpoint := none, apiKey := none } }

/-- A fully enabled gateway after a successful `connect()`. -/
def connectedGateway : GTCXEcosystemIntegration :=
  (GTCXEcosystemIntegration.connect (GTCXEcosystemIntegration.new onConfig)).snd

end GTCX

namespace TradeDesk

/-- A demonstration run: create a user, place a buy order, execute it. -/
def demoActs : List Action :=
  [Action.createUser "u1" "Jane Doe" "jane" 0,
   Action.placeOrder "u1" "GOLD" Side.buy 100 10 1,
   Action.executeTrade 0 10 2]

/-- The executed order produced by `demoActs`. -/
def demoOrder : Order :=
  { id := 0, userId := "u1", symbol := "GOLD", side := Side.buy, quantity := 100
    limitPrice := 10, status := OrderStatus.executed, createdAt := 1, executedAt := some 2 }

/-- A state holding one pending sell order for 5 units of a symbol the user
does not hold. -/
def sellOrder : Order :=
  { id := 0, userId := "u1", symbol := "G", side := Side.sell, quantity := 5
    limitPrice := 1, status := OrderStatus.pending, createdAt := 0, executedAt := none }

/-- The engine state containing only `sellOrder` and its user. -/
def sellState : EngineState :=
  { users := [{ id := "u1", name := "Jane Doe", email := "jane", createdAt := 0 }]
    orders := [sellOrder], trades := [], portfolios := []
    nextOrderId := 1, nextTradeId := 0, shortSelling := false }

/-- The empty portfolio. -/
def emptyPortfolio : Portfolio :=
  { positions := [], cashBalance := 0, realizedPnL := 0 }

end TradeDesk

/-!
Theorems about the Ecosystem Gateway.
-/

open GTCX GTCX.GTCXEcosystemIntegration

theorem connectProbe_ok (c : GTCXConfig) : connectProbe c = Except.ok () := by
  unfold connectProbe testAIConnection testComplianceConnection testSecurityConnection
  cases aiEnabled c <;> cases complianceEnabled c <;> cases securityEnabled c <;> rfl

theorem connect_eq (g : GTCXEcosystemIntegration) :
    connect g = (true, { g with isConnected := true }) := by
  simp [connect, connectProbe_ok]

/-- Claim C10: `connect()` always returns `true` and sets `isConnected` to
`true` for every configuration: the three connection probes never fail, so the
`catch` branch of `connect` that returns `false` is unreachable. -/
theorem connect_always_succeeds :
    ∀ g : GTCXEcosystemIntegration,
      connect g = (true, { g with isConnected := true }) ∧
      testAIConnection = Except.ok () ∧
      testComplianceConnection = Except.ok () ∧
      testSecurityConnection = Except.ok () :=
  fun g => ⟨connect_eq g, rfl, rfl, rfl⟩

/-- Claim C9: before `connect()` has been invoked, every capability getter
returns `null` for every input and every configuration, even with the
capability enabled, because `isConnected` is initialized to `false`. -/
theorem getters_null_before_connect :
    ∀ (c : GTCXConfig) (portfolioData userId marketData : String) (rand : ℚ) (now : ℕ),
      getAIRiskAssessment (new c) portfolioData rand now = none ∧
      getAITradeRecommendations (new c) userId marketData = none ∧
      performGuardianCompliance (new c) userId now = none ∧
      getSecurityStatus (new c) userId now = none := by
  intro c portfolioData userId marketData rand now
  refine ⟨?_, ?_, ?_, ?_⟩ <;>
    simp [new, getAIRiskAssessment, getAIRiskAssessmentWith,
      getAITradeRecommendations, getAITradeRecommendationsWith,
      performGuardianCompliance, performGuardianComplianceWith,
      getSecurityStatus, getSecurityStatusWith]

/-- Claim C2: each capability getter absorbs every internal failure of its
`try` body and returns `null`; no error is ever propagated to the caller. -/
theorem gateway_absorbs_failures :
    ∀ (g : GTCXEcosystemIntegration) (e : String),
      getAIRiskAssessmentWith g (Except.error e) = none ∧
      getAITradeRecommendationsWith g (Except.error e) = none ∧
      performGuardianComplianceWith g (Except.error e) = none ∧
      getSecurityStatusWith g (Except.error e) = none := by
  intro g e
  refine ⟨?_, ?_, ?_, ?_⟩
  · unfold getAIRiskAssessmentWith
    split <;> rfl
  · unfold getAITradeRecommendationsWith
    split <;> rfl
  · unfold performGuardianComplianceWith
    split <;> rfl
  · unfold getSecurityStatusWith
    split <;> rfl

/-- Claim C8: whenever `performGuardianCompliance` returns a non-null result,
that result is the fixed value with `compliant = true`, all four checks true
and an empty warnings list: the mock never reports a non-compliant user. -/
theorem guardian_compliance_constant :
    ∀ (g : GTCXEcosystemIntegration) (userId : String) (now : ℕ),
      performGuardianCompliance g userId now = none ∨
      performGuardianCompliance g userId now = some
        { compliant := true
          checks := { kyc := true, aml := true, trading := true, risk := true }
          warnings := [], timestamp := now } := by
  intro g userId now
  unfold performGuardianCompliance performGuardianComplianceWith complianceMock
  split
  · exact Or.inl rfl
  · exact Or.inr rfl

theorem aiEnabled_false_of_disabled {c : GTCXConfig}
    (h : c.ai = none ∨ ∃ sc, c.ai = some sc ∧ sc.enabled = false) :
    aiEnabled c = false := by
  rcases h with h | ⟨sc, hsc, he⟩
  · simp [aiEnabled, h]
  · simp [aiEnabled, hsc, he]

theorem complianceEnabled_false_of_disabled {c : GTCXConfig}
    (h : c.compliance = none ∨ ∃ sc, c.compliance = some sc ∧ sc.enabled = false) :
    complianceEnabled c = false := by
  rcases h with h | ⟨sc, hsc, he⟩
  · simp [complianceEnabled, h]
  · simp [complianceEnabled, hsc, he]

theorem securityEnabled_false_of_disabled {c : GTCXConfig}
    (h : c.security = none ∨ ∃ sc, c.security = some sc ∧ sc.enabled = false) :
    securityEnabled c = false := by
  rcases h with h | ⟨sc, hsc, he⟩
  · simp [securityEnabled, h]
  · simp [securityEnabled, hsc, he]

/-- Claim C1: every capability getter of the gateway returns `null` (not an
error) whenever its capability is disabled, that is when its `enabled` flag is
`false` or its config section is absent. -/
theorem gateway_disabled_returns_none :
    ∀ (g : GTCXEcosystemIntegration) (portfolioData userId marketData : String)
      (rand : ℚ) (now : ℕ),
      ((g.config.ai = none ∨ ∃ sc, g.config.ai = some sc ∧ sc.enabled = false) →
        getAIRiskAssessment g portfolioData rand now = none ∧
        getAITradeRecommendations g userId marketData = none) ∧
      ((g.config.compliance = none ∨ ∃ sc, g.config.compliance = some sc ∧ sc.enabled = false) →
        performGuardianCompliance g userId now = none) ∧
      ((g.config.security = none ∨ ∃ sc, g.config.security = some sc ∧ sc.enabled = false) →
        getSecurityStatus g userId now = none) := by
  intro g portfolioData userId marketData rand now
  refine ⟨fun h => ?_, fun h => ?_, fun h => ?_⟩
  · have ha := aiEnabled_false_of_disabled h
    constructor <;>
      simp [getAIRiskAssessment, getAIRiskAssessmentWith,
        getAITradeRecommendations, getAITradeRecommendationsWith, ha]
  · have hc := complianceEnabled_false_of_disabled h
    simp [performGuardianCompliance, performGuardianComplianceWith, hc]
  · have hs := securityEnabled_false_of_disabled h
    simp [getSecurityStatus, getSecurityStatusWith, hs]

theorem gateway_disabled_returns_none_witness :
    getAIRiskAssessment (new offConfig) "" 0 0 = none ∧
    getAITradeRecommendations (new offConfig) "" "" = none ∧
    performGuardianCompliance (new offConfig) "" 0 = none ∧
    getSecurityStatus (new offConfig) "" 0 = none := by
  have h := gateway_disabled_returns_none (new offConfig) "" "" "" 0 0
  exact ⟨(h.1 (Or.inl rfl)).1, (h.1 (Or.inl rfl)).2, h.2.1 (Or.inl rfl), h.2.2 (Or.inl rfl)⟩

/-- Claim C6: shape postconditions of non-null gateway results.  A non-null AI
response has `riskScore` in `[0, 100]` (given `Math.random()` yields a value
in `[0, 1)`), `confidence` in `[0, 1]` and a list of string recommendations; a
non-null security result has `riskLevel` among `low`, `medium`, `high`, a
boolean `authenticated` and a list of string permissions; a non-null
compliance result carries the four boolean checks and a list of string
warnings. -/
theorem gateway_result_shapes :
    ∀ (g : GTCXEcosystemIntegration) (portfolioData userId : String) (rand : ℚ) (now : ℕ),
      (∀ r, 0 ≤ rand → rand < 1 →
        getAIRiskAssessment g portfolioData rand now = some r →
        0 ≤ r.riskScore ∧ r.riskScore ≤ 100 ∧ 0 ≤ r.confidence ∧ r.confidence ≤ 1 ∧
        ∃ l : List String, r.recommendations = l) ∧
      (∀ r, getSecurityStatus g userId now = some r →
        (r.riskLevel = "low" ∨ r.riskLevel = "medium" ∨ r.riskLevel = "high") ∧
        (r.authenticated = true ∨ r.authenticated = false) ∧
        ∃ l : List String, r.permissions = l) ∧
      (∀ r, performGuardianCompliance g userId now = some r →
        (r.checks.kyc = true ∨ r.checks.kyc = false) ∧
        (r.checks.aml = true ∨ r.checks.aml = false) ∧
        (r.checks.trading = true ∨ r.checks.trading = false) ∧
        (r.checks.risk = true ∨ r.checks.risk = false) ∧
        ∃ l : List String, r.warnings = l) := by
  intro g portfolioData userId rand now
  refine ⟨fun r h0 h1 hr => ?_, fun r hr => ?_, fun r hr => ?_⟩
  · unfold getAIRiskAssessment getAIRiskAssessmentWith at hr
    split at hr
    · exact absurd hr (by simp)
    · rw [Option.some.injEq] at hr
      subst hr
      refine ⟨mul_nonneg h0 (by norm_num), ?_, by norm_num [aiMockResponse],
        by norm_num [aiMockResponse], _, rfl⟩
      have : rand * 100 ≤ 1 * 100 :=
        mul_le_mul_of_nonneg_right (le_of_lt h1) (by norm_num)
      simpa [aiMockResponse] using this
  · unfold getSecurityStatus getSecurityStatusWith at hr
    split at hr
    · exact absurd hr (by simp)
    · rw [Option.some.injEq] at hr
      subst hr
      exact ⟨Or.inl rfl, Or.inl rfl, _, rfl⟩
  · unfold performGuardianCompliance performGuardianComplianceWith at hr
    split at hr
    · exact absurd hr (by simp)
    · rw [Option.some.injEq] at hr
      subst hr
      exact ⟨Or.inl rfl, Or.inl rfl, Or.inl rfl, Or.inl rfl, _, rfl⟩

theorem gateway_result_shapes_witness :
    0 ≤ (aiMockResponse (1 / 2) 0).riskScore ∧
    (aiMockResponse (1 / 2) 0).riskScore ≤ 100 ∧
    0 ≤ (aiMockResponse (1 / 2) 0).confidence ∧
    (aiMockResponse (1 / 2) 0).confidence ≤ 1 ∧
    ∃ l : List String, (aiMockResponse (1 / 2) 0).recommendations = l :=
  (gateway_result_shapes connectedGateway "" "" (1 / 2) 0).1 (aiMockResponse (1 / 2) 0)
    (by norm_num) (by norm_num) rfl

/-- Claim C7: capability independence. For two configurations that agree on
everything but the `ai` section, the compliance and security getters after
`connect()` return identical results; with `ai` disabled only the AI getters
return `null`. -/
theorem capability_independence :
    ∀ (c₁ c₂ : GTCXConfig) (portfolioData userId marketData : String) (rand : ℚ) (now : ℕ),
      c₁.compliance = c₂.compliance → c₁.security = c₂.security →
      c₁.globalSouth = c₂.globalSouth →
      (performGuardianCompliance (connect (new c₁)).snd userId now =
        performGuardianCompliance (connect (new c₂)).snd userId now) ∧
      (getSecurityStatus (connect (new c₁)).snd userId now =
        getSecurityStatus (connect (new c₂)).snd userId now) ∧
      (aiEnabled c₁ = false →
        getAIRiskAssessment (connect (new c₁)).snd portfolioData rand now = none ∧
        getAITradeRecommendations (connect (new c₁)).snd userId marketData = none) := by
  intro c₁ c₂ portfolioData userId marketData rand now hc hs hg
  refine ⟨?_, ?_, fun ha => ?_⟩
  · simp [connect_eq, new, performGuardianCompliance, performGuardianComplianceWith,
      complianceEnabled, hc]
  · simp [connect_eq, new, getSecurityStatus, getSecurityStatusWith,
      securityEnabled, hs]
  · constructor <;>
      simp [connect_eq, new, getAIRiskAssessment, getAIRiskAssessmentWith,
        getAITradeRecommendations, getAITradeRecommendationsWith, ha]

theorem capability_independence_witness :
    (performGuardianCompliance (connect (new aiOffConfig)).snd "u" 0 =
      performGuardianCompliance (connect (new onConfig)).snd "u" 0) ∧
    (getSecurityStatus (connect (new aiOffConfig)).snd "u" 0 =
      getSecurityStatus (connect (new onConfig)).snd "u" 0) ∧
    (getAIRiskAssessment (connect (new aiOffConfig)).snd "" 0 0 = none ∧
      getAITradeRecommendations (connect (new aiOffConfig)).snd "u" "" = none) := by
  have h := capability_independence aiOffConfig onConfig "" "u" "" 0 0 rfl rfl rfl
  exact ⟨h.1, h.2.1, h.2.2 rfl⟩

/-!
Theorems about the Portfolio Ledger.
-/

open TradeDesk

theorem find_replace_of_isSome (l : List (String × TradeDesk.Position)) (sym : String)
    (pos : TradeDesk.Position)
    (h : (l.find? (fun q => q.fst == sym)).isSome = true) :
    (l.map (fun q => if q.fst == sym then (sym, pos) else q)).find? (fun q => q.fst == sym)
      = some (sym, pos) := by
  induction l with
  | nil => simp at h
  | cons a t ih =>
    cases ha : (a.fst == sym) with
    | true =>
      simp only [List.map_cons, if_pos ha]
      exact List.find?_cons_of_pos _ (by simp)
    | false =>
      rw [List.find?_cons_of_neg _ (by simp [ha])] at h
      simp only [List.map_cons, if_neg (by simp [ha] : ¬(a.fst == sym) = true)]
      rw [List.find?_cons_of_neg _ (by simp [ha])]
      exact ih h

theorem find_append_single (l : List (String × TradeDesk.Position)) (sym : String)
    (pos : TradeDesk.Position)
    (h : l.find? (fun q => q.fst == sym) = none) :
    (l ++ [(sym, pos)]).find? (fun q => q.fst == sym) = some (sym, pos) := by
  rw [List.find?_append, h]
  simp [List.find?]

theorem lookupPos_setPos_self (p : Portfolio) (sym : String) (pos : TradeDesk.Position) :
    lookupPos (setPos p sym pos) sym = pos := by
  unfold lookupPos setPos
  by_cases h : (p.positions.find? (fun q => q.fst == sym)).isSome = true
  · rw [if_pos h, find_replace_of_isSome p.positions sym pos h]
  · have hn : p.positions.find? (fun q => q.fst == sym) = none :=
      Option.not_isSome_iff_eq_none.mp h
    rw [if_neg h, find_append_single p.positions sym pos hn]

theorem lookupPos_irrel (p : Portfolio) (c : ℚ) (sym : String) :
    lookupPos { p with cashBalance := c } sym = lookupPos p sym := rfl

theorem lookupPos_irrel2 (p : Portfolio) (c r : ℚ) (sym : String) :
    lookupPos { p with cashBalance := c, realizedPnL := r } sym = lookupPos p sym := rfl

theorem applyTrade_buy (p : Portfolio) (sym : String) (q px : ℚ) :
    applyTrade false p sym Side.buy q px = Except.ok
      { setPos p sym
          { quantity := (lookupPos p sym).quantity + q
            averageCost :=
              if (lookupPos p sym).quantity = 0 then px
              else ((lookupPos p sym).quantity * (lookupPos p sym).averageCost + q * px) /
                ((lookupPos p sym).quantity + q) } with
        cashBalance := p.cashBalance - q * px } := rfl

/-- Claim C3: weighted-average-cost law of the Portfolio Ledger.  A buy sets
`newQty = oldQty + quantity`,
`newAvgCost = (oldQty * oldAvgCost + quantity * executionPrice) / newQty`
(which is `executionPrice` when `oldQty = 0`) and decreases cash by
`quantity * executionPrice`; and starting from an empty position, buying 100
units at 10 then 100 units at 20 yields quantity 200 and average cost 15. -/
theorem weighted_average_cost_law :
    (∀ (p : Portfolio) (sym : String) (q px : ℚ),
      0 ≤ (lookupPos p sym).quantity → 0 < q →
      ∃ p₂, applyTrade false p sym Side.buy q px = Except.ok p₂ ∧
        (lookupPos p₂ sym).quantity = (lookupPos p sym).quantity + q ∧
        (lookupPos p₂ sym).averageCost =
          ((lookupPos p sym).quantity * (lookupPos p sym).averageCost + q * px) /
            ((lookupPos p sym).quantity + q) ∧
        ((lookupPos p sym).quantity = 0 → (lookupPos p₂ sym).averageCost = px) ∧
        p₂.cashBalance = p.cashBalance - q * px) ∧
    (∃ p₁ p₂,
      applyTrade false emptyPortfolio "SYM" Side.buy 100 10 = Except.ok p₁ ∧
      applyTrade false p₁ "SYM" Side.buy 100 20 = Except.ok p₂ ∧
      (lookupPos p₂ "SYM").quantity = 200 ∧
      (lookupPos p₂ "SYM").averageCost = 15) := by
  constructor
  · intro p sym q px hq0 hq
    refine ⟨_, applyTrade_buy p sym q px, ?_, ?_, ?_, rfl⟩
    · rw [lookupPos_irrel, lookupPos_setPos_self]
    · rw [lookupPos_irrel, lookupPos_setPos_self]
      by_cases h0 : (lookupPos p sym).quantity = 0
      · rw [if_pos h0, h0]
        rw [zero_mul, zero_add, zero_add, mul_comm, mul_div_assoc,
          div_self (ne_of_gt hq), mul_one]
      · rw [if_neg h0]
    · intro h0
      rw [lookupPos_irrel, lookupPos_setPos_self, if_pos h0]
  · refine ⟨{ positions := [("SYM", { quantity := 100, averageCost := 10 })],
               cashBalance := -1000, realizedPnL := 0 },
      { positions := [("SYM", { quantity := 200, averageCost := 15 })],
        cashBalance := -3000, realizedPnL := 0 }, ?_, ?_, ?_, ?_⟩
    · norm_num [applyTrade, lookupPos, setPos, emptyPosition, emptyPortfolio]
    · norm_num [applyTrade, lookupPos, setPos, emptyPosition]
    · norm_num [lookupPos]
    · norm_num [lookupPos]

theorem weighted_average_cost_law_witness :
    ∃ p₂, applyTrade false emptyPortfolio "G" Side.buy 100 10 = Except.ok p₂ ∧
      (lookupPos p₂ "G").quantity = (lookupPos emptyPortfolio "G").quantity + 100 ∧
      (lookupPos p₂ "G").averageCost =
        ((lookupPos emptyPortfolio "G").quantity *
            (lookupPos emptyPortfolio "G").averageCost + 100 * 10) /
          ((lookupPos emptyPortfolio "G").quantity + 100) ∧
      ((lookupPos emptyPortfolio "G").quantity = 0 →
        (lookupPos p₂ "G").averageCost = 10) ∧
      p₂.cashBalance = emptyPortfolio.cashBalance - 100 * 10 :=
  weighted_average_cost_law.1 emptyPortfolio "G" 100 10
    (by norm_num [lookupPos, emptyPortfolio, emptyPosition]) (by norm_num)

theorem applyTrade_sell_insufficient (p : Portfolio) (sym : String) (q px : ℚ)
    (hlt : (lookupPos p sym).quantity < q) :
    applyTrade false p sym Side.sell q px = Except.error TradeError.InsufficientPosition := by
  simp [applyTrade, hlt]

theorem executeTrade_sell_insufficient (s : EngineState) (oid : ℕ) (px : ℚ) (now : ℕ)
    (o : Order) (hshort : s.shortSelling = false) (hfind : findOrder s oid = some o)
    (hpend : o.status = OrderStatus.pending) (hside : o.side = Side.sell) (hpx : 0 < px)
    (hlt : (lookupPos (getPortfolio s o.userId) o.symbol).quantity < o.quantity) :
    executeTrade s oid px now = Except.error TradeError.InsufficientPosition := by
  have happ := applyTrade_sell_insufficient (getPortfolio s o.userId) o.symbol o.quantity px hlt
  simp only [executeTrade, hfind]
  rw [hshort, hside]
  simp [hpend, not_le.mpr hpx, happ]

/-- Claim C4: with short-selling disabled (the default), a sell via
`applyTrade` of a quantity strictly greater than the held position fails with
`InsufficientPosition`, and an `executeTrade` hitting that failure leaves the
engine state (positions, cash, realized P&L) exactly as before. -/
theorem sell_insufficient_position_atomic :
    (∀ (p : Portfolio) (sym : String) (q px : ℚ),
      (lookupPos p sym).quantity < q →
      applyTrade false p sym Side.sell q px = Except.error TradeError.InsufficientPosition) ∧
    (∀ (s : EngineState) (oid : ℕ) (px : ℚ) (now : ℕ) (o : Order),
      s.shortSelling = false → findOrder s oid = some o →
      o.status = OrderStatus.pending → o.side = Side.sell → 0 < px →
      (lookupPos (getPortfolio s o.userId) o.symbol).quantity < o.quantity →
      executeTrade s oid px now = Except.error TradeError.InsufficientPosition ∧
      step s (Action.executeTrade oid px now) = s) := by
  refine ⟨fun p sym q px hlt => applyTrade_sell_insufficient p sym q px hlt, ?_⟩
  intro s oid px now o hshort hfind hpend hside hpx hlt
  have he := executeTrade_sell_insufficient s oid px now o hshort hfind hpend hside hpx hlt
  exact ⟨he, by simp [step, he]⟩

theorem sell_insufficient_position_atomic_witness :
    applyTrade false emptyPortfolio "G" Side.sell 5 1
        = Except.error TradeError.InsufficientPosition ∧
    executeTrade sellState 0 1 3 = Except.error TradeError.InsufficientPosition ∧
    step sellState (Action.executeTrade 0 1 3) = sellState := by
  have h := sell_insufficient_position_atomic.2 sellState 0 1 3 sellOrder rfl rfl rfl rfl
    (by norm_num)
    (by norm_num [getPortfolio, sellState, lookupPos, sellOrder, emptyPosition])
  exact ⟨sell_insufficient_position_atomic.1 emptyPortfolio "G" 5 1
    (by norm_num [lookupPos, emptyPortfolio, emptyPosition]), h.1, h.2⟩

/-!
Theorems about the Order Lifecycle Manager state machine.
-/

theorem createUser_fields (s : EngineState) (i n e : String) (t : ℕ) :
    (createUser s i n e t).orders = s.orders ∧
    (createUser s i n e t).trades = s.trades ∧
    (createUser s i n e t).nextOrderId = s.nextOrderId := by
  unfold createUser
  split <;> exact ⟨rfl, rfl, rfl⟩

theorem placeOrder_ok {s : EngineState} {uid sym : String} {side : Side} {q px : ℚ}
    {now : ℕ} {r : Order × EngineState}
    (h : placeOrder s uid sym side q px now = Except.ok r) :
    r.fst.id = s.nextOrderId ∧ r.fst.status = OrderStatus.pending ∧
    r.snd.orders = s.orders ++ [r.fst] ∧ r.snd.trades = s.trades ∧
    r.snd.nextOrderId = s.nextOrderId + 1 := by
  unfold placeOrder at h
  split at h
  · exact absurd h (by simp)
  · split at h
    · exact absurd h (by simp)
    · split at h
      · exact absurd h (by simp)
      · injection h with h
        subst h
        exact ⟨rfl, rfl, rfl, rfl, rfl⟩

theorem executeTrade_ok {s : EngineState} {oid : ℕ} {px : ℚ} {now : ℕ}
    {r : Trade × EngineState} (h : executeTrade s oid px now = Except.ok r) :
    ∃ o, findOrder s oid = some o ∧ o.status = OrderStatus.pending ∧
      r.snd.orders = s.orders.map (fun q =>
        if q.id == oid then
          { q with status := OrderStatus.executed, executedAt := some now }
        else q) ∧
      r.snd.trades = s.trades ++ [r.fst] ∧
      r.fst.orderId = oid ∧
      r.snd.nextOrderId = s.nextOrderId := by
  unfold executeTrade at h
  split at h
  · exact absurd h (by simp)
  · rename_i o hf
    split at h
    · exact absurd h (by simp)
    · rename_i hstat
      split at h
      · exact absurd h (by simp)
      · split at h
        · exact absurd h (by simp)
        · injection h with h
          subst h
          exact ⟨o, hf, not_ne_iff.mp hstat, rfl, rfl, rfl, rfl⟩

theorem cancelOrder_ok {s : EngineState} {oid : ℕ} {r : Bool × EngineState}
    (h : cancelOrder s oid = Except.ok r) :
    r.snd = s ∨
    ∃ o, findOrder s oid = some o ∧ o.status = OrderStatus.pending ∧
      r.snd.orders = s.orders.map (fun q =>
        if q.id == oid then { q with status := OrderStatus.cancelled } else q) ∧
      r.snd.trades = s.trades ∧ r.snd.nextOrderId = s.nextOrderId := by
  unfold cancelOrder at h
  split at h
  · exact absurd h (by simp)
  · rename_i o hf
    split at h
    · rename_i hstat
      injection h with h
      subst h
      exact Or.inr ⟨o, hf, hstat, rfl, rfl, rfl⟩
    · injection h with h
      subst h
      exact Or.inl rfl

theorem map_ids_eq (l : List Order) (f : Order → Order)
    (hf : ∀ o ∈ l, (f o).id = o.id) :
    (l.map f).map (fun o => o.id) = l.map (fun o => o.id) := by
  rw [List.map_map]
  exact List.map_congr_left (fun a ha => hf a ha)

theorem order_eq_of_mem_of_id {s : EngineState} (hinv : EngineInv s) {a b : Order}
    (ha : a ∈ s.orders) (hb : b ∈ s.orders) (hid : a.id = b.id) : a = b :=
  List.inj_on_of_nodup_map hinv.2.1 ha hb hid

theorem tradeCount_congr {s t : EngineState} (h : t.trades = s.trades) (x : ℕ) :
    tradeCount t x = tradeCount s x := by
  simp [tradeCount, h]

theorem tradeCount_snoc {s t : EngineState} {tr : Trade}
    (h : t.trades = s.trades ++ [tr]) (x : ℕ) :
    tradeCount t x = tradeCount s x + (if tr.orderId == x then 1 else 0) := by
  simp only [tradeCount, h, List.filter_append, List.length_append]
  by_cases hp : (tr.orderId == x) = true
  · simp [hp, List.filter]
  · simp [hp, List.filter]

theorem tradeCount_zero_of_ge {s : EngineState} (hinv : EngineInv s) {x : ℕ}
    (hx : s.nextOrderId ≤ x) : tradeCount s x = 0 := by
  have hfil : s.trades.filter (fun t => t.orderId == x) = [] := by
    rw [List.filter_eq_nil_iff]
    intro t ht
    obtain ⟨o, ho, he⟩ := hinv.2.2.1 t ht
    have hlt := hinv.1 o ho
    simp only [beq_iff_eq, he]
    exact Nat.ne_of_lt (lt_of_lt_of_le hlt hx)
  simp [tradeCount, hfil]

theorem inv_of_fields_eq {s t : EngineState} (ho : t.orders = s.orders)
    (ht : t.trades = s.trades) (hn : t.nextOrderId = s.nextOrderId)
    (hinv : EngineInv s) : EngineInv t := by
  obtain ⟨h1, h2, h3, h4⟩ := hinv
  refine ⟨?_, ?_, ?_, ?_⟩
  · intro o hmem
    rw [ho] at hmem
    rw [hn]
    exact h1 o hmem
  · rw [ho]
    exact h2
  · intro tr hmem
    rw [ht] at hmem
    rw [ho]
    exact h3 tr hmem
  · intro o hmem
    rw [ho] at hmem
    rw [tradeCount_congr ht]
    exact h4 o hmem

theorem inv_placeOrder_ok {s : EngineState} {uid sym : String} {side : Side}
    {q px : ℚ} {now : ℕ} {r : Order × EngineState}
    (h : placeOrder s uid sym side q px now = Except.ok r)
    (hinv : EngineInv s) : EngineInv r.snd := by
  obtain ⟨hid, hstat, ho, ht, hn⟩ := placeOrder_ok h
  obtain ⟨h1, h2, h3, h4⟩ := hinv
  refine ⟨?_, ?_, ?_, ?_⟩
  · intro o hmem
    rw [ho] at hmem
    rw [hn]
    rcases List.mem_append.mp hmem with hm | hm
    · exact Nat.lt_succ_of_lt (h1 o hm)
    · rw [List.mem_singleton.mp hm, hid]
      exact Nat.lt_succ_self _
  · rw [ho, List.map_append]
    rw [List.nodup_append]
    refine ⟨h2, List.nodup_singleton _, ?_⟩
    intro x hx hx'
    obtain ⟨o, hom, hoe⟩ := List.mem_map.mp hx
    simp only [List.map_cons, List.map_nil, List.mem_singleton] at hx'
    rw [hx', hid] at hoe
    exact absurd hoe (Nat.ne_of_lt (h1 o hom))
  · intro tr hmem
    rw [ht] at hmem
    obtain ⟨o, hom, hoe⟩ := h3 tr hmem
    rw [ho]
    exact ⟨o, List.mem_append_left _ hom, hoe⟩
  · intro o hmem
    rw [ho] at hmem
    rw [tradeCount_congr ht]
    rcases List.mem_append.mp hmem with hm | hm
    · exact h4 o hm
    · rw [List.mem_singleton.mp hm]
      rw [hstat, hid]
      have hz : tradeCount s s.nextOrderId = 0 :=
        tradeCount_zero_of_ge ⟨h1, h2, h3, h4⟩ (le_refl _)
      simp [hz]

theorem inv_executeTrade_ok {s : EngineState} {oid : ℕ} {px : ℚ} {now : ℕ}
    {r : Trade × EngineState} (h : executeTrade s oid px now = Except.ok r)
    (hinv : EngineInv s) : EngineInv r.snd := by
  obtain ⟨o, hf, hpend, ho, ht, hoid, hn⟩ := executeTrade_ok h
  have homem : o ∈ s.orders := List.mem_of_find?_eq_some hf
  have hoeq : o.id = oid := by
    have := List.find?_some hf
    simpa [findOrder] using (by simpa using this : (o.id == oid) = true)
  obtain ⟨h1, h2, h3, h4⟩ := hinv
  set f : Order → Order := fun q =>
    if q.id == oid then
      { q with status := OrderStatus.executed, executedAt := some now }
    else q with hfdef
  have hfid : ∀ q, (f q).id = q.id := by
    intro q
    rw [hfdef]
    dsimp only
    split <;> rfl
  refine ⟨?_, ?_, ?_, ?_⟩
  · intro o' hmem
    rw [ho] at hmem
    obtain ⟨q, hq, hfq⟩ := List.mem_map.mp hmem
    rw [hn, ← hfq, hfid q]
    exact h1 q hq
  · rw [ho, map_ids_eq s.orders f (fun q _ => hfid q)]
    exact h2
  · intro tr hmem
    rw [ht] at hmem
    rw [ho]
    rcases List.mem_append.mp hmem with hm | hm
    · obtain ⟨q, hqm, hqe⟩ := h3 tr hm
      exact ⟨f q, List.mem_map_of_mem f hqm, by rw [hfid q]; exact hqe⟩
    · rw [List.mem_singleton.mp hm]
      exact ⟨f o, List.mem_map_of_mem f homem, by rw [hfid o, hoid, hoeq]⟩
  · intro o' hmem
    rw [ho] at hmem
    obtain ⟨q, hq, hfq⟩ := List.mem_map.mp hmem
    rw [← hfq]
    rw [tradeCount_snoc ht, hfid q, hoid]
    by_cases hqo : (q.id == oid) = true
    · have hqid : q.id = oid := by simpa using hqo
      have hqeq : q = o := List.inj_on_of_nodup_map h2 hq homem (by rw [hqid, hoeq])
      have hcount : tradeCount s q.id = 0 := by
        have := h4 q hq
        rw [hqeq, hpend] at this
        rw [hqeq]
        simpa using this
      have hfq_exec : (f q).status = OrderStatus.executed := by
        rw [hfdef]
        dsimp only
        rw [if_pos hqo]
      rw [hcount, hfq_exec]
      simp [hqid]
    · have hq_ne : oid ≠ q.id := fun hcc => hqo (by simp [hcc])
      have hfq_same : f q = q := by
        rw [hfdef]
        dsimp only
        rw [if_neg (by simpa using fun hcc => hq_ne hcc.symm)]
      rw [hfq_same]
      simp only [if_neg (by simpa using hq_ne : ¬(oid == q.id) = true)]
      rw [Nat.add_zero]
      exact h4 q hq

theorem inv_cancelOrder_ok {s : EngineState} {oid : ℕ} {r : Bool × EngineState}
    (h : cancelOrder s oid = Except.ok r) (hinv : EngineInv s) : EngineInv r.snd := by
  rcases cancelOrder_ok h with heq | ⟨o, hf, hpend, ho, ht, hn⟩
  · rw [heq]
    exact hinv
  · have homem : o ∈ s.orders := List.mem_of_find?_eq_some hf
    have hoeq : o.id = oid := by
      have := List.find?_some hf
      simpa using (by simpa using this : (o.id == oid) = true)
    obtain ⟨h1, h2, h3, h4⟩ := hinv
    set f : Order → Order := fun q =>
      if q.id == oid then { q with status := OrderStatus.cancelled } else q with hfdef
    have hfid : ∀ q, (f q).id = q.id := by
      intro q
      rw [hfdef]
      dsimp only
      split <;> rfl
    refine ⟨?_, ?_, ?_, ?_⟩
    · intro o' hmem
      rw [ho] at hmem
      obtain ⟨q, hq, hfq⟩ := List.mem_map.mp hmem
      rw [hn, ← hfq, hfid q]
      exact h1 q hq
    · rw [ho, map_ids_eq s.orders f (fun q _ => hfid q)]
      exact h2
    · intro tr hmem
      rw [ht] at hmem
      rw [ho]
      obtain ⟨q, hqm, hqe⟩ := h3 tr hmem
      exact ⟨f q, List.mem_map_of_mem f hqm, by rw [hfid q]; exact hqe⟩
    · intro o' hmem
      rw [ho] at hmem
      obtain ⟨q, hq, hfq⟩ := List.mem_map.mp hmem
      rw [← hfq]
      rw [tradeCount_congr ht, hfid q]
      by_cases hqo : (q.id == oid) = true
      · have hqid : q.id = oid := by simpa using hqo
        have hqeq : q = o := List.inj_on_of_nodup_map h2 hq homem (by rw [hqid, hoeq])
        have hcount : tradeCount s q.id = 0 := by
          have := h4 q hq
          rw [hqeq, hpend] at this
          rw [hqeq]
          simpa using this
        have hfq_canc : (f q).status = OrderStatus.cancelled := by
          rw [hfdef]
          dsimp only
          rw [if_pos hqo]
        rw [hcount, hfq_canc]
        simp
      · have hfq_same : f q = q := by
          rw [hfdef]
          dsimp only
          rw [if_neg hqo]
        rw [hfq_same]
        exact h4 q hq

theorem inv_step {s : EngineState} (a : Action) (hinv : EngineInv s) :
    EngineInv (step s a) := by
  cases a with
  | createUser i n e t =>
    obtain ⟨ho, ht, hn⟩ := createUser_fields s i n e t
    exact inv_of_fields_eq ho ht hn hinv
  | placeOrder uid sym side q px now =>
    cases hres : placeOrder s uid sym side q px now with
    | error e =>
      simp only [step, hres]
      exact hinv
    | ok r =>
      simp only [step, hres]
      exact inv_placeOrder_ok hres hinv
  | executeTrade oid px now =>
    cases hres : executeTrade s oid px now with
    | error e =>
      simp only [step, hres]
      exact hinv
    | ok r =>
      simp only [step, hres]
      exact inv_executeTrade_ok hres hinv
  | cancelOrder oid =>
    cases hres : cancelOrder s oid with
    | error e =>
      simp only [step, hres]
      exact hinv
    | ok r =>
      simp only [step, hres]
      exact inv_cancelOrder_ok hres hinv

theorem inv_foldl (acts : List Action) :
    ∀ s : EngineState, EngineInv s → EngineInv (acts.foldl step s) := by
  induction acts with
  | nil => exact fun s h => h
  | cons a t ih => exact fun s h => ih (step s a) (inv_step a h)

theorem inv_initState : EngineInv initState := by
  refine ⟨?_, ?_, ?_, ?_⟩ <;> simp [initState]

theorem inv_run (acts : List Action) : EngineInv (run acts) :=
  inv_foldl acts initState inv_initState

theorem step_transition {s : EngineState} (hinv : EngineInv s) (a : Action)
    {o₁ o₂ : Order} (h₁ : o₁ ∈ s.orders) (h₂ : o₂ ∈ (step s a).orders)
    (hid : o₂.id = o₁.id) :
    o₂.status = o₁.status ∨
      (o₁.status = OrderStatus.pending ∧
        (o₂.status = OrderStatus.executed ∨ o₂.status = OrderStatus.cancelled)) := by
  cases a with
  | createUser i n e t =>
    obtain ⟨ho, _, _⟩ := createUser_fields s i n e t
    rw [step] at h₂
    rw [ho] at h₂
    exact Or.inl (congrArg Order.status (order_eq_of_mem_of_id hinv h₂ h₁ hid))
  | placeOrder uid sym side q px now =>
    cases hres : placeOrder s uid sym side q px now with
    | error e =>
      simp only [step, hres] at h₂
      exact Or.inl (congrArg Order.status (order_eq_of_mem_of_id hinv h₂ h₁ hid))
    | ok r =>
      simp only [step, hres] at h₂
      obtain ⟨hrid, _, ho, _, _⟩ := placeOrder_ok hres
      rw [ho] at h₂
      rcases List.mem_append.mp h₂ with hm | hm
      · exact Or.inl (congrArg Order.status (order_eq_of_mem_of_id hinv hm h₁ hid))
      · exfalso
        have hb := hinv.1 o₁ h₁
        rw [List.mem_singleton.mp hm] at hid
        rw [hrid] at hid
        rw [← hid] at hb
        exact lt_irrefl _ hb
  | executeTrade oid px now =>
    cases hres : executeTrade s oid px now with
    | error e =>
      simp only [step, hres] at h₂
      exact Or.inl (congrArg Order.status (order_eq_of_mem_of_id hinv h₂ h₁ hid))
    | ok r =>
      simp only [step, hres] at h₂
      obtain ⟨o, hf, hpend, ho, _, _, _⟩ := executeTrade_ok hres
      have homem : o ∈ s.orders := List.mem_of_find?_eq_some hf
      have hoeq : o.id = oid := by
        have := List.find?_some hf
        simpa using (by simpa using this : (o.id == oid) = true)
      rw [ho] at h₂
      obtain ⟨q, hq, hfq⟩ := List.mem_map.mp h₂
      by_cases hqo : (q.id == oid) = true
      · have hqid : q.id = oid := by simpa using hqo
        have hq_o : q = o := List.inj_on_of_nodup_map hinv.2.1 hq homem (by rw [hqid, hoeq])
        have ho2 : o₂.status = OrderStatus.executed := by
          rw [← hfq]
          rw [if_pos hqo]
        have hq_o1 : q = o₁ := by
          refine List.inj_on_of_nodup_map hinv.2.1 hq h₁ ?_
          have : o₂.id = q.id := by
            rw [← hfq]
            split <;> rfl
          rw [← this, hid]
        refine Or.inr ⟨?_, Or.inl ho2⟩
        rw [← hq_o1, hq_o, hpend]
      · have hfq_same : o₂ = q := by
          rw [← hfq]
          rw [if_neg hqo]
        rw [hfq_same] at hid
        exact Or.inl (by rw [hfq_same, order_eq_of_mem_of_id hinv hq h₁ hid])
  | cancelOrder oid =>
    cases hres : cancelOrder s oid with
    | error e =>
      simp only [step, hres] at h₂
      exact Or.inl (congrArg Order.status (order_eq_of_mem_of_id hinv h₂ h₁ hid))
    | ok r =>
      simp only [step, hres] at h₂
      rcases cancelOrder_ok hres with heq | ⟨o, hf, hpend, ho, _, _⟩
      · rw [heq] at h₂
        exact Or.inl (congrArg Order.status (order_eq_of_mem_of_id hinv h₂ h₁ hid))
      · have homem : o ∈ s.orders := List.mem_of_find?_eq_some hf
        have hoeq : o.id = oid := by
          have := List.find?_some hf
          simpa using (by simpa using this : (o.id == oid) = true)
        rw [ho] at h₂
        obtain ⟨q, hq, hfq⟩ := List.mem_map.mp h₂
        by_cases hqo : (q.id == oid) = true
        · have hqid : q.id = oid := by simpa using hqo
          have hq_o : q = o := List.inj_on_of_nodup_map hinv.2.1 hq homem (by rw [hqid, hoeq])
          have ho2 : o₂.status = OrderStatus.cancelled := by
            rw [← hfq]
            rw [if_pos hqo]
          have hq_o1 : q = o₁ := by
            refine List.inj_on_of_nodup_map hinv.2.1 hq h₁ ?_
            have : o₂.id = q.id := by
              rw [← hfq]
              split <;> rfl
            rw [← this, hid]
          refine Or.inr ⟨?_, Or.inr ho2⟩
          rw [← hq_o1, hq_o, hpend]
        · have hfq_same : o₂ = q := by
            rw [← hfq]
            rw [if_neg hqo]
          rw [hfq_same] at hid
          exact Or.inl (by rw [hfq_same, order_eq_of_mem_of_id hinv hq h₁ hid])

/-- Claim C5: order state-machine invariant.  In every reachable engine state
each order's status is `pending`, `executed` or `cancelled`; exactly one trade
exists per executed order and none for a pending or cancelled order; and any
single operation either leaves an order's status unchanged or moves it from
`pending` to `executed` or from `pending` to `cancelled` (terminal states are
immutable). -/
theorem order_state_machine_invariant :
    ∀ acts : List Action,
      (∀ o ∈ (run acts).orders,
        o.status = OrderStatus.pending ∨ o.status = OrderStatus.executed ∨
          o.status = OrderStatus.cancelled) ∧
      (∀ o ∈ (run acts).orders,
        tradeCount (run acts) o.id =
          if o.status = OrderStatus.executed then 1 else 0) ∧
      (∀ (a : Action) (o₁ o₂ : Order), o₁ ∈ (run acts).orders →
        o₂ ∈ (step (run acts) a).orders → o₂.id = o₁.id →
        o₂.status = o₁.status ∨
          (o₁.status = OrderStatus.pending ∧
            (o₂.status = OrderStatus.executed ∨ o₂.status = OrderStatus.cancelled))) := by
  intro acts
  have hinv := inv_run acts
  refine ⟨fun o _ => ?_, fun o hmem => hinv.2.2.2 o hmem,
    fun a o₁ o₂ h₁ h₂ hid => step_transition hinv a h₁ h₂ hid⟩
  cases h : o.status
  · exact Or.inl rfl
  · exact Or.inr (Or.inl rfl)
  · exact Or.inr (Or.inr rfl)

theorem order_state_machine_invariant_witness :
    tradeCount (run demoActs) demoOrder.id =
      if demoOrder.status = OrderStatus.executed then 1 else 0 :=
  (order_state_machine_invariant demoActs).2.1 demoOrder (by
    have h : (run demoActs).orders = [demoOrder] := by
      norm_num [run, step, demoActs, initState, createUser, placeOrder, executeTrade,
        findOrder, getPortfolio, setPortfolio, applyTrade, lookupPos, setPos,
        emptyPosition, demoOrder, List.find?]
    rw [h]
    exact List.mem_singleton_self _)
